import Mathlib

/-!
Verification of the Objective-C call-graph extractor
(`tools/callgraph/call_graph_generator.py`).

The analyzer is a line-oriented pattern scanner built on five concrete
Python regular expressions.  We embed it shallowly: a small backtracking
regular-expression engine reproduces Python `re` leftmost / greedy /
first-alternative semantics for the concrete patterns the source uses
(`re.search` and `re.finditer`), and the scanner, the formatting helpers
and the report printer are transliterated from the source line by line.
Python strings are modelled as `List Char` / `String`; dictionaries as
association lists with insert-or-replace (CPython dicts keep insertion
order, which only matters here through `sorted(...)`, modelled by an
insertion sort); sets of method names as duplicate-free lists (only their
cardinalities are consumed).  Python raises `IndexError` on `""[0]`; the
analyzer can only reach that indexing (`callee_class[0].isupper()`) with
an empty class name, i.e. an empty fallback unit name, which we do not
model: `pyHeadUpper` is total and returns `false` on `""`.
-/

set_option maxRecDepth 8000

/-- Python `\s` on ASCII input: space, TAB, LF, VT, FF, CR. -/
def wsChar (c : Char) : Bool :=
  c == ' ' || c == '\t' || c == '\n' || c == Char.ofNat 11 || c == Char.ofNat 12 || c == '\r'

/-- Python `\w` on ASCII input: letters, digits, underscore. -/
def wordChar (c : Char) : Bool :=
  c.isAlphanum || c == '_'

/-- Capture environment of a regex match: group number ↦ captured text.
Later captures are consed in front, so lookup returns the latest one,
as Python keeps the last capture of a group. -/
def Caps : Type := List (Nat × List Char)

/-- Latest capture recorded for group `n`. -/
def capGet (caps : Caps) (n : Nat) : List Char :=
  match caps with
  | [] => []
  | (m, v) :: rest => if m = n then v else capGet rest n

/-- Regular expressions, restricted to the constructs the five source
patterns use: character classes, concatenation, alternation, greedy
Kleene star and numbered capture groups. -/
inductive RE : Type where
  | eps : RE
  | cls : (Char → Bool) → RE
  | seq : RE → RE → RE
  | alt : RE → RE → RE
  | star : RE → RE
  | group : Nat → RE → RE

/-- Greedy iteration for `star`: prefer one more (non-empty) iteration of
the body, in the body's own preference order, over stopping; `fuel` bounds
the number of iterations (each kept iteration consumes at least one
character, so `input.length + 1` fuel is exhaustive). -/
def starIter (step : List Char → Caps → List (List Char × Caps)) :
    Nat → List Char → Caps → List (List Char × Caps)
  | 0, input, caps => [(input, caps)]
  | fuel + 1, input, caps =>
      ((step input caps).flatMap (fun rc =>
        if rc.1.length < input.length then starIter step fuel rc.1 rc.2 else [rc]))
      ++ [(input, caps)]

/-- Backtracking matcher.  `reRun r input caps` returns every way `r` can
match a prefix of `input`, as `(unconsumed suffix, captures)` pairs, in
Python `re` preference order (greedy, left alternative first); a caller
takes the head.  This mirrors the backtracking behaviour of CPython's
`re` on the patterns below (no anchors, no laziness, no empty loops). -/
def reRun : RE → List Char → Caps → List (List Char × Caps)
  | RE.eps, input, caps => [(input, caps)]
  | RE.cls p, input, caps =>
      match input with
      | [] => []
      | c :: rest => if p c then [(rest, caps)] else []
  | RE.seq a b, input, caps =>
      (reRun a input caps).flatMap (fun rc => reRun b rc.1 rc.2)
  | RE.alt a b, input, caps =>
      reRun a input caps ++ reRun b input caps
  | RE.group n a, input, caps =>
      (reRun a input caps).map
        (fun rc => (rc.1, (n, input.take (input.length - rc.1.length)) :: rc.2))
  | RE.star a, input, caps =>
      starIter (reRun a) (input.length + 1) input caps

/-- `X+` as the source patterns use it: `X` then greedy `X*`. -/
def rplus (r : RE) : RE := RE.seq r (RE.star r)

/-- A literal character. -/
def rchar (c : Char) : RE := RE.cls (fun d => d == c)

/-- A literal string. -/
def rlit (s : String) : RE := (s.data.map rchar).foldr RE.seq RE.eps

/-- `re.search` from a given offset: try each start position from left to
right and return the first (hence leftmost) position where the pattern
matches, with the match's end offset and captures. -/
def searchFrom (r : RE) : List Char → Nat → Option (Nat × Nat × Caps)
  | s, pos =>
    match reRun r s [] with
    | rc :: _ => some (pos, pos + (s.length - rc.1.length), rc.2)
    | [] =>
      match s with
      | [] => none
      | _ :: rest => searchFrom r rest (pos + 1)

/-- `re.search`: leftmost match of `r` in `s` (captures only). -/
def reSearch (r : RE) (s : List Char) : Option Caps :=
  (searchFrom r s 0).map (fun t => t.2.2)

/-- `re.finditer`: non-overlapping matches from left to right, each search
resuming at the previous match's end (empty matches cannot arise with the
source patterns; an empty match would advance by one as in CPython). -/
def findIterFrom (r : RE) : Nat → List Char → List Caps
  | 0, _ => []
  | fuel + 1, s =>
    match searchFrom r s 0 with
    | none => []
    | some (st, en, caps) =>
        caps :: findIterFrom r fuel (s.drop (if st < en then en else st + 1))

/-- All matches of `r` in `s`, in order, as capture environments. -/
def reFindIter (r : RE) (s : List Char) : List Caps :=
  findIterFrom r (s.length + 1) s

/-- `\s*` -/
def wsStar : RE := RE.star (RE.cls wsChar)

/-- Source pattern `@interface\s+(\w+)\s*:\s*(\w+)`
(`parse_interface`, line 53). -/
def interfacePattern : RE :=
  RE.seq (rlit "@interface") (RE.seq (rplus (RE.cls wsChar))
    (RE.seq (RE.group 1 (rplus (RE.cls wordChar)))
      (RE.seq wsStar (RE.seq (rchar ':')
        (RE.seq wsStar (RE.group 2 (rplus (RE.cls wordChar))))))))

/-- Source pattern `([+-])\s*\(([\w\s*]+)\)([\w:]+)[\s;]`
(`parse_interface`, line 59). -/
def declMethodPattern : RE :=
  RE.seq (RE.group 1 (RE.cls (fun c => c == '+' || c == '-')))
    (RE.seq wsStar
      (RE.seq (rchar '(')
        (RE.seq (RE.group 2 (rplus (RE.cls (fun c => wordChar c || wsChar c || c == '*'))))
          (RE.seq (rchar ')')
            (RE.seq (RE.group 3 (rplus (RE.cls (fun c => wordChar c || c == ':'))))
              (RE.cls (fun c => wsChar c || c == ';')))))))

/-- Source pattern `([+-])\s*\(([\w\s*]+)\)([\w:]+(?::\w+\s*)*)\s*[{;]`
(`parse_implementation`, line 75). -/
def implMethodPattern : RE :=
  RE.seq (RE.group 1 (RE.cls (fun c => c == '+' || c == '-')))
    (RE.seq wsStar
      (RE.seq (rchar '(')
        (RE.seq (RE.group 2 (rplus (RE.cls (fun c => wordChar c || wsChar c || c == '*'))))
          (RE.seq (rchar ')')
            (RE.seq (RE.group 3
                (RE.seq (rplus (RE.cls (fun c => wordChar c || c == ':')))
                  (RE.star (RE.seq (rchar ':')
                    (RE.seq (rplus (RE.cls wordChar)) wsStar)))))
              (RE.seq wsStar (RE.cls (fun c => c == '\x7b' || c == ';'))))))))

/-- Source pattern `@implementation\s+(\w+)` (`parse_implementation`,
line 67). -/
def implementationPattern : RE :=
  RE.seq (rlit "@implementation")
    (RE.seq (rplus (RE.cls wsChar)) (RE.group 1 (rplus (RE.cls wordChar))))

/-- Source pattern `\[\s*(self|super|\w+)\s+([\w:]+(?:\s+\w+:)*[^\]]*)\]`
(`parse_implementation`, line 77). -/
def methodCallsPattern : RE :=
  RE.seq (rchar '[')
    (RE.seq wsStar
      (RE.seq (RE.group 1 (RE.alt (rlit "self") (RE.alt (rlit "super")
          (rplus (RE.cls wordChar)))))
        (RE.seq (rplus (RE.cls wsChar))
          (RE.seq (RE.group 2
              (RE.seq (rplus (RE.cls (fun c => wordChar c || c == ':')))
                (RE.seq (RE.star (RE.seq (rplus (RE.cls wsChar))
                    (RE.seq (rplus (RE.cls wordChar)) (rchar ':'))))
                  (RE.star (RE.cls (fun c => !(c == ']')))))))
            (rchar ']')))))

/-- Python `str.split(sep)` for a one-character separator: every
separator occurrence splits, empty segments included; `"".split(c)`
is `[""]`. -/
def pySplit (sep : Char) : List Char → List (List Char)
  | [] => [[]]
  | c :: rest =>
    if c = sep then [] :: pySplit sep rest
    else
      match pySplit sep rest with
      | [] => [[c]]
      | seg :: segs => (c :: seg) :: segs

/-- Python `str.lstrip()` (whitespace). -/
def pyLStrip (l : List Char) : List Char := l.dropWhile wsChar

/-- Python `str.rstrip()` (whitespace). -/
def pyRStrip (l : List Char) : List Char := (l.reverse.dropWhile wsChar).reverse

/-- Python `str.strip()` (whitespace). -/
def pyStrip (l : List Char) : List Char := pyLStrip (pyRStrip l)

/-- Python `sep.join(parts)` for a one-character separator. -/
def pyJoin (sep : Char) (parts : List (List Char)) : List Char :=
  List.intercalate [sep] parts

/-- Python `str.startswith`. -/
def pyStartswith : List Char → List Char → Bool
  | _, [] => true
  | [], _ :: _ => false
  | c :: rest, p :: ps => c == p && pyStartswith rest ps

/-- Python `s[0].isupper()`, totalised: `false` on the empty string
(where Python would raise `IndexError`; unreachable for the unit names
considered here, see the header comment). -/
def pyHeadUpper (l : List Char) : Bool :=
  match l with
  | [] => false
  | c :: _ => c.isUpper

/-- Python `any(x.islower() for x in s)`. -/
def pyAnyLower (l : List Char) : Bool := l.any Char.isLower

/-- Python `str.replace(".", " ")` (single-character pattern). -/
def pyReplaceDot (l : List Char) : List Char :=
  l.map (fun c => if c = '.' then ' ' else c)

/-- A call edge, mirroring class `MethodCall` (source lines 7–41).  The
constructor-computed `caller_type` / `callee_type` fields are filled in by
`mkMethodCall` below. -/
structure MethodCall : Type where
  caller_class : String
  caller_method : String
  callee_class : String
  callee_method : String
  caller_type : String
  callee_type : String
deriving DecidableEq, Repr

/-- The fixed name-prefix set `['alloc', 'new', 'shared', 'default',
'class']` used by the class-method heuristic (lines 14–17, 110). -/
def classMethodNameStarts : List String :=
  ["alloc", "new", "shared", "default", "class"]

/-- `any(m.startswith(p) for p in classMethodNameStarts)`. -/
def startsWithAnyClassStart (m : String) : Bool :=
  classMethodNameStarts.any (fun p => pyStartswith m.data p.data)

/-- `MethodCall.__init__` (lines 8–17): store the four strings and compute
the `+`/`-` type markers by the prefix test on the *stored method
strings*. -/
def mkMethodCall (caller_class caller_method callee_class callee_method : String) :
    MethodCall :=
  { caller_class := caller_class
    caller_method := caller_method
    callee_class := callee_class
    callee_method := callee_method
    caller_type := if startsWithAnyClassStart caller_method then "+" else "-"
    callee_type := if startsWithAnyClassStart callee_method then "+" else "-" }

/-- `MethodCall.format_method_name` (lines 19–28): strip; if the stripped
name contains a colon, split on colons, strip each part, drop empty
parts, rejoin with `:` and append a trailing `:`. -/
def MethodCall.format_method_name (method_name : String) : String :=
  let name := pyStrip method_name.data
  if name.contains ':' then
    String.mk (pyJoin ':' (((pySplit ':' name).map pyStrip).filter (fun p => p ≠ [])) ++ [':'])
  else String.mk name

/-- `MethodCall.get_caller_signature` (lines 30–33). -/
def MethodCall.get_caller_signature (mc : MethodCall) : String :=
  mc.caller_type ++ "[" ++ mc.caller_class ++ " "
    ++ MethodCall.format_method_name mc.caller_method ++ "]"

/-- `MethodCall.get_callee_signature` (lines 35–38). -/
def MethodCall.get_callee_signature (mc : MethodCall) : String :=
  mc.callee_type ++ "[" ++ mc.callee_class ++ " "
    ++ MethodCall.format_method_name mc.callee_method ++ "]"

/-- `MethodCall.__str__` (lines 40–41). -/
def MethodCall.edgeString (mc : MethodCall) : String :=
  mc.get_caller_signature ++ " -> " ++ mc.get_callee_signature

/-- Insert-or-replace on an association list: the model of
`dict[key] = value` (keys stay unique when starting from `[]`). -/
def dictSet (k v : String) : List (String × String) → List (String × String)
  | [] => [(k, v)]
  | (k2, v2) :: rest =>
      if k = k2 then (k, v) :: rest else (k2, v2) :: dictSet k v rest

/-- `dict.get(key, default)`. -/
def dictGet (k dflt : String) : List (String × String) → String
  | [] => dflt
  | (k2, v) :: rest => if k = k2 then v else dictGet k dflt rest

/-- `defaultdict(set)`-style `table[cls].add(m)`: create the entry on
first use; ignore a method name already present (set semantics — only the
cardinalities of these sets are ever consumed). -/
def methodsAdd (k m : String) : List (String × List String) → List (String × List String)
  | [] => [(k, [m])]
  | (k2, ms) :: rest =>
      if k = k2 then (k2, if ms.contains m then ms else ms ++ [m]) :: rest
      else (k2, ms) :: methodsAdd k m rest

/-- Analyzer state, mirroring `CallGraphGenerator.__init__` (lines
43–48). -/
structure AnalyzerState : Type where
  call_graph : List MethodCall
  class_methods : List (String × List String)
  class_hierarchy : List (String × String)
  current_class : Option String
deriving DecidableEq, Repr

/-- The freshly constructed generator: everything empty,
`current_class = None`. -/
def initState : AnalyzerState :=
  { call_graph := [], class_methods := [], class_hierarchy := [], current_class := none }

/-- `CallGraphGenerator.parse_interface` (lines 50–62): record the
superclass captured by the `@interface` pattern under the *supplied*
class name (the captured class name, group 1, is discarded), then add
every method name matched by the declaration-method pattern, also under
the supplied class name. -/
def parse_interface (content class_name : String) (s : AnalyzerState) : AnalyzerState :=
  let s1 :=
    match reSearch interfacePattern content.data with
    | some caps =>
        { s with class_hierarchy :=
            dictSet class_name (String.mk (capGet caps 2)) s.class_hierarchy }
    | none => s
  (reFindIter declMethodPattern content.data).foldl
    (fun st caps =>
      { st with class_methods :=
          methodsAdd class_name (String.mk (capGet caps 3)) st.class_methods })
    s1

/-- Receiver resolution (lines 96–101): `self` is the class being
implemented; `super` is its recorded superclass, or the synthesized
`UnknownSuperOf<class>` when the hierarchy has no entry; any other token
is taken verbatim. -/
def resolveReceiver (hierarchy : List (String × String)) (current_class : String)
    (receiver : String) : String :=
  if receiver = "self" then current_class
  else if receiver = "super" then
    dictGet current_class ("UnknownSuperOf" ++ current_class) hierarchy
  else receiver

/-- Callee kind heuristic (lines 110–112): `+` iff the raw message name
starts with one of the class-method name starts, or the resolved callee
class begins with an uppercase character and contains no lowercase
character. -/
def calleeMethodType (full_method callee_class : String) : String :=
  if startsWithAnyClassStart full_method
      || (pyHeadUpper callee_class.data && !pyAnyLower callee_class.data) then "+"
  else "-"

/-- The inline callee message-name formatting of lines 115–119: strip;
if the name contains a colon, split on colons, strip each part (empty
parts are *kept*, unlike `format_method_name`), rejoin with `:` and
append a trailing `:`. -/
def inlineFormatCalleeName (full_method : String) : String :=
  let method_name := pyStrip full_method.data
  if method_name.contains ':' then
    String.mk (pyJoin ':' ((pySplit ':' method_name).map pyStrip) ++ [':'])
  else String.mk method_name

/-- Per-line scanner state of `parse_implementation`:
`current_method_type` and `current_method` (set together by a header
match, `None` before the first header), plus the growing call graph. -/
structure ImplLineState : Type where
  cur : Option (String × String)
  graph : List MethodCall
deriving DecidableEq, Repr

/-- The method-declaration header search on one line
(`re.search(method_pattern, line)`, line 84), returning
`(kind marker, method name)` = groups 1 and 3. -/
def implHeaderMatch (line : List Char) : Option (String × String) :=
  (reSearch implMethodPattern line).map
    (fun caps => (String.mk (capGet caps 1), String.mk (capGet caps 3)))

/-- Processing of one detected call site (lines 93–127): resolve the
receiver, classify the callee, format caller and callee strings, replace
dots by spaces, and append the new `MethodCall`. -/
def processCallMatch (hierarchy : List (String × String)) (current_class : String)
    (cur : String × String) (graph : List MethodCall) (caps : Caps) : List MethodCall :=
  let callee_receiver := String.mk (capGet caps 1)
  let full_method := String.mk (capGet caps 2)
  let callee_class := resolveReceiver hierarchy current_class callee_receiver
  if full_method = "" then graph
  else
    let formatted_caller := cur.1 ++ " [" ++ current_class ++ " " ++ cur.2 ++ "]"
    let callee_method_type := calleeMethodType full_method callee_class
    let method_name := inlineFormatCalleeName full_method
    let formatted_callee := callee_method_type ++ " [" ++ callee_class ++ " " ++ method_name ++ "]"
    let formatted_caller := String.mk (pyReplaceDot formatted_caller.data)
    let formatted_callee := String.mk (pyReplaceDot formatted_callee.data)
    graph ++ [mkMethodCall current_class formatted_caller callee_class formatted_callee]

/-- Per-line step of `parse_implementation` (lines 82–127): a header
match updates the caller context and contributes nothing else; otherwise,
when a caller context is active, every call-site match on the line
appends an edge; otherwise the line is skipped. -/
def processImplLine (hierarchy : List (String × String)) (current_class : String)
    (st : ImplLineState) (line : List Char) : ImplLineState :=
  match implHeaderMatch line with
  | some tm => { cur := some tm, graph := st.graph }
  | none =>
    match st.cur with
    | none => st
    | some cur =>
        { st with graph :=
            ((reFindIter methodCallsPattern line).foldl
              (processCallMatch hierarchy current_class cur) st.graph) }

/-- `CallGraphGenerator.parse_implementation` (lines 64–127): resolve the
class being implemented (`@implementation` capture, else the supplied
fallback name), then scan the unit line by line. -/
def parse_implementation (content file_class_name : String) (s : AnalyzerState) :
    AnalyzerState :=
  let current_class :=
    match reSearch implementationPattern content.data with
    | some caps => String.mk (capGet caps 1)
    | none => file_class_name
  let lines := pySplit '\n' content.data
  let final := lines.foldl (processImplLine s.class_hierarchy current_class)
    { cur := none, graph := s.call_graph }
  { s with call_graph := final.graph, current_class := some current_class }

/-- A source unit as handed over by the (out-of-scope) driver:
declaration (`.h`) units go to `parse_interface`, definition (`.m`) units
to `parse_implementation`; `name` is the unit's fallback class name (the
file stem in the source). -/
inductive UnitKind : Type where
  | decl : UnitKind
  | defn : UnitKind
deriving DecidableEq, Repr

/-- One input unit. -/
structure AUnit : Type where
  kind : UnitKind
  text : String
  name : String
deriving DecidableEq, Repr

/-- Route one unit to its scanner (`analyze_file`, lines 129–141, minus
the file I/O). -/
def analyzeUnit (s : AnalyzerState) (u : AUnit) : AnalyzerState :=
  match u.kind with
  | UnitKind.decl => parse_interface u.text u.name s
  | UnitKind.defn => parse_implementation u.text u.name s

/-- A whole run on an ordered list of units, from the fresh state
(`main`, lines 208–232, keeps declaration units before definition units;
`runUnits` processes whatever order it is given). -/
def runUnits (units : List AUnit) : AnalyzerState :=
  units.foldl analyzeUnit initState

/-- Insert into a `le`-sorted list, before the first element `b` with
`le a b` (the classical insertion step; with a total `le` this sorts, and
processing keeps the original relative order of `le`-equivalent elements,
matching Python's stable `sorted` — all keys sorted below are unique
anyway). -/
def insertLe {α : Type} (le : α → α → Bool) (a : α) : List α → List α
  | [] => [a]
  | b :: l => if le a b then a :: b :: l else b :: insertLe le a l

/-- Insertion sort: the model of Python `sorted`. -/
def sortLe {α : Type} (le : α → α → Bool) : List α → List α
  | [] => []
  | a :: l => insertLe le a (sortLe le l)

/-- Keys of `defaultdict` grouping in first-occurrence order (CPython
dict key order). -/
def dedupFirst (l : List String) : List String :=
  l.foldl (fun acc c => if acc.contains c then acc else acc ++ [c]) []

/-- The index-assignment loop of `print_call_graph` (lines 156–162):
walk the call graph in order, attaching `invocation_count` values
`n, n+1, n+2, …` -/
def assignFrom (n : Nat) : List MethodCall → List (Nat × MethodCall)
  | [] => []
  | c :: rest => (n, c) :: assignFrom (n + 1) rest

/-- Invocation indices as assigned in the report phase: position in the
call graph, starting at 0. -/
def assign_invocation_indices (g : List MethodCall) : List (Nat × MethodCall) :=
  assignFrom 0 g

/-- Comparison used for `sorted(self.class_hierarchy.items())`: Python
compares the `(class, superclass)` tuples, which (with unique class
keys) is comparison of the class names. -/
def pairKeyLe (a b : String × String) : Bool := decide (a.1 ≤ b.1)

/-- `sorted(self.class_hierarchy.items())` (line 153). -/
def sortedHierarchy (s : AnalyzerState) : List (String × String) :=
  sortLe pairKeyLe s.class_hierarchy

/-- The `Class -> Superclass` lines of the report (lines 153–154). -/
def hierarchyLines (s : AnalyzerState) : List String :=
  (sortedHierarchy s).map (fun p => p.1 ++ " -> " ++ p.2)

/-- The call graph with invocation indices attached (lines 158–162). -/
def indexedCalls (s : AnalyzerState) : List (Nat × MethodCall) :=
  assign_invocation_indices s.call_graph

/-- `by_caller.keys()`: caller classes in first-occurrence order. -/
def callerClassList (s : AnalyzerState) : List String :=
  dedupFirst (s.call_graph.map MethodCall.caller_class)

/-- `sorted(by_caller.keys())` (line 166). -/
def sortedCallerClasses (s : AnalyzerState) : List String :=
  sortLe (fun a b => decide (a ≤ b)) (callerClassList s)

/-- One caller class's edges, `sorted(..., key=lambda x:
x.invocation_index)` (line 168). -/
def sectionCalls (s : AnalyzerState) (c : String) : List (Nat × MethodCall) :=
  sortLe (fun a b => decide (a.1 ≤ b.1))
    ((indexedCalls s).filter (fun p => p.2.caller_class == c))

/-- The `invoke_<callerClass>_<callerMethod>_<invocationIndex>` fact id
(line 169). -/
def invocationId (p : Nat × MethodCall) : String :=
  "invoke_" ++ p.2.caller_class ++ "_" ++ p.2.caller_method ++ "_" ++ toString p.1

/-- One printed fact line (line 170). -/
def factLine (p : Nat × MethodCall) : String :=
  "  StaticMethodInvocation(" ++ invocationId p ++ ", " ++ toString p.1 ++ ", "
    ++ p.2.get_callee_signature ++ ", " ++ p.2.get_caller_signature ++ ")"

/-- The per-caller-class fact sections (lines 166–170): a header naming
the class, then its fact lines. -/
def callSections (s : AnalyzerState) : List String :=
  (sortedCallerClasses s).flatMap
    (fun c => ("\n# " ++ c ++ ":") :: (sectionCalls s c).map factLine)

/-- `sum(len(methods) for methods in self.class_methods.values())`. -/
def totalDeclaredMethods (tbl : List (String × List String)) : Nat :=
  (tbl.map (fun p => p.2.length)).sum

/-- The three summary counters (lines 173–176). -/
def statisticsLines (s : AnalyzerState) : List String :=
  ["\nStatistics:",
   "Total Classes: " ++ toString s.class_methods.length,
   "Total Methods: " ++ toString (totalDeclaredMethods s.class_methods),
   "Total Method Calls: " ++ toString s.call_graph.length]

/-- `CallGraphGenerator.print_call_graph` (lines 146–176), as the ordered
list of strings handed to `print` (each is terminated by a newline when
written; embedded `\n`s come from the f-strings of the source). -/
def print_call_graph (s : AnalyzerState) : List String :=
  ["\nCall Graph Analysis:", "===================", "\nClass Hierarchy:"]
    ++ hierarchyLines s
    ++ ["\nMethod Calls (Doop Facts Format):"]
    ++ callSections s
    ++ statisticsLines s

/-- The canonicalization contract exactly as the specification words it
(§4.1), for comparison with `MethodCall.format_method_name`: no colon →
the input trimmed of surrounding whitespace; otherwise the colon-split
segments of the input, each trimmed, empty segments discarded, rejoined
with `:` and suffixed with a trailing `:`. -/
def spec_canonicalize (s : String) : String :=
  if s.data.contains ':' then
    String.mk (pyJoin ':'
      (((pySplit ':' s.data).map pyStrip).filter (fun p => p ≠ [])) ++ [':'])
  else String.mk (pyStrip s.data)

/-- The class-level classification exactly as claim C3 / spec §4.1 word
it, for comparison with `calleeMethodType`: class-level iff (a) the
message name starts with one of `alloc`, `new`, `shared`, `default`,
`class`, or (b) the receiver-class token has an uppercase first character
and contains no lowercase character. -/
def spec_isClassLevel (message receiverClass : String) : Bool :=
  classMethodNameStarts.any (fun p => pyStartswith message.data p.data)
    || (pyHeadUpper receiverClass.data && !pyAnyLower receiverClass.data)

/-- C1 scenario, declaration unit: class `Dog` extending `Animal`,
declared method `bark`. -/
def c1DeclText : String := "@interface Dog : Animal\n- (void)bark;\n@end\n"

/-- C1 scenario, definition unit for `Dog`, with the method header
written `-(void) bark` exactly as in the spec's end-to-end scenario
(§8), and the two call lines. -/
def c1ImplText : String :=
  "@implementation Dog\n-(void) bark \x7b\n    [self growl];\n    [Animal sharedInstance];\n\x7d\n@end\n"

/-- C1 scenario inputs: declaration unit first, then definition unit. -/
def c1Units : List AUnit :=
  [⟨UnitKind.decl, c1DeclText, "Dog"⟩, ⟨UnitKind.defn, c1ImplText, "Dog"⟩]

/-- C2 scenario: a definition unit whose method header carries a leading
`+` marker (`+ (void)sharedThing`, matching the header pattern), with one
call site in its body. -/
def c2ImplText : String :=
  "@implementation C\n+ (void)sharedThing \x7b\n[self helper];\n\x7d\n@end\n"

/-- C2 scenario inputs. -/
def c2Units : List AUnit := [⟨UnitKind.defn, c2ImplText, "C"⟩]

/-- C3 scenario: a `doWork` send to a receiver class containing lowercase
letters, and a `sharedInstance` send. -/
def c3ImplText : String :=
  "@implementation Dog\n- (void)bark \x7b\n[self doWork];\n[Animal sharedInstance];\n\x7d\n@end\n"

/-- C3 scenario inputs. -/
def c3Units : List AUnit := [⟨UnitKind.defn, c3ImplText, "Dog"⟩]

/-- C4 scenario: a call site whose message name `foo::bar` contains an
empty colon segment. -/
def c4ImplText : String :=
  "@implementation Cat\n- (void)go \x7b\n[self foo::bar];\n\x7d\n@end\n"

/-- C4 scenario inputs. -/
def c4Units : List AUnit := [⟨UnitKind.defn, c4ImplText, "Cat"⟩]

/-- C5 scenario: a `[super helper]` send inside a definition unit for
`C`, with no hierarchy entry for `C`. -/
def c5ImplText : String :=
  "@implementation C\n- (void)foo \x7b\n[super helper];\n\x7d\n@end\n"

/-- C5 scenario inputs (no declaration unit, hence empty hierarchy). -/
def c5Units : List AUnit := [⟨UnitKind.defn, c5ImplText, "C"⟩]

/-- C5 companion scenario: hierarchy `B -> A` recorded, then a
`[super helper]` send inside the definition unit for `B`. -/
def c5DeclTextB : String := "@interface B : A\n@end\n"

/-- C5 companion definition unit. -/
def c5ImplTextB : String :=
  "@implementation B\n- (void)foo \x7b\n[super helper];\n\x7d\n@end\n"

/-- C5 companion inputs. -/
def c5UnitsB : List AUnit :=
  [⟨UnitKind.decl, c5DeclTextB, "B"⟩, ⟨UnitKind.defn, c5ImplTextB, "B"⟩]

/-- C7 witness line: a valid method-declaration header that also contains
a bracketed message send on the same line. -/
def c7HeaderLine : List Char := "- (void)tick \x7b [self tock];".data

/-- C7 witness lines: call sites with no header anywhere before them. -/
def c7NoHeaderLines : List (List Char) :=
  ["[self orphan];".data, "x = [Helper shared];".data]

/-- C9 declaration unit: the header names class `X`, which differs from
any fallback name it is filed under. -/
def c9DeclText : String := "@interface X : Y\n- (void)m;\n@end\n"

/-- C10 inputs: a fixed ordered list of units used to witness
determinism. -/
def c10Units : List AUnit :=
  [⟨UnitKind.decl, "@interface D : E\n- (void)p;\n@end\n", "D"⟩,
   ⟨UnitKind.defn, "@implementation D\n- (void)p \x7b\n[self q];\n\x7d\n@end\n", "D"⟩]

theorem insertLe_perm {α : Type} (le : α → α → Bool) (a : α) :
    ∀ l : List α, (insertLe le a l).Perm (a :: l)
  | [] => List.Perm.refl _
  | b :: l => by
      unfold insertLe
      by_cases h : le a b = true
      · simp [h]
      · simp only [h, if_false]
        exact ((insertLe_perm le a l).cons b).trans (List.Perm.swap a b l)

theorem sortLe_perm {α : Type} (le : α → α → Bool) :
    ∀ l : List α, (sortLe le l).Perm l
  | [] => List.Perm.refl _
  | a :: l => (insertLe_perm le a (sortLe le l)).trans ((sortLe_perm le l).cons a)

theorem pairwise_insertLe {α : Type} {le : α → α → Bool}
    (htot : ∀ a b, le a b = false → le b a = true)
    (htrans : ∀ a b c, le a b = true → le b c = true → le a c = true) (a : α) :
    ∀ {l : List α}, l.Pairwise (fun x y => le x y = true) →
      (insertLe le a l).Pairwise (fun x y => le x y = true) := by
  intro l
  induction l with
  | nil => intro _; simp [insertLe]
  | cons b l ih =>
      intro h
      rw [List.pairwise_cons] at h
      unfold insertLe
      by_cases hab : le a b = true
      · rw [if_pos hab, List.pairwise_cons]
        refine ⟨?_, List.pairwise_cons.2 h⟩
        intro x hx
        rcases List.mem_cons.1 hx with hx | hx
        · exact hx ▸ hab
        · exact htrans a b x hab (h.1 x hx)
      · rw [if_neg hab, List.pairwise_cons]
        refine ⟨?_, ih h.2⟩
        intro x hx
        rcases List.mem_cons.1 ((insertLe_perm le a l).mem_iff.1 hx) with hx | hx
        · exact hx ▸ htot a b (by simpa using hab)
        · exact h.1 x hx

theorem pairwise_sortLe {α : Type} {le : α → α → Bool}
    (htot : ∀ a b, le a b = false → le b a = true)
    (htrans : ∀ a b c, le a b = true → le b c = true → le a c = true) :
    ∀ l : List α, (sortLe le l).Pairwise (fun x y => le x y = true)
  | [] => List.Pairwise.nil
  | a :: l => pairwise_insertLe htot htrans a (pairwise_sortLe htot htrans l)

theorem assignFrom_map_fst : ∀ (n : Nat) (g : List MethodCall),
    (assignFrom n g).map Prod.fst = List.range' n g.length
  | _, [] => rfl
  | n, c :: g => by
      simp [assignFrom, List.range'_succ, assignFrom_map_fst (n + 1) g]

theorem assignFrom_map_snd : ∀ (n : Nat) (g : List MethodCall),
    (assignFrom n g).map Prod.snd = g
  | _, [] => rfl
  | n, c :: g => by simp [assignFrom, assignFrom_map_snd (n + 1) g]

theorem dropWhile_all {α : Type} {p : α → Bool} :
    ∀ {u : List α}, (∀ c ∈ u, p c = true) → u.dropWhile p = []
  | [], _ => rfl
  | c :: u, h => by
      rw [List.dropWhile_cons, if_pos (h c (List.mem_cons_self c u))]
      exact dropWhile_all (fun d hd => h d (List.mem_cons_of_mem c hd))

theorem dropWhile_append_all {α : Type} {p : α → Bool} {u v : List α}
    (h : ∀ c ∈ u, p c = true) : (u ++ v).dropWhile p = v.dropWhile p := by
  rw [List.dropWhile_append, dropWhile_all h]
  rfl

theorem dropWhile_append_pos {α : Type} {p : α → Bool} {u v : List α}
    (h : u.dropWhile p ≠ []) : (u ++ v).dropWhile p = u.dropWhile p ++ v := by
  rw [List.dropWhile_append, if_neg]
  simpa [List.isEmpty_iff] using h

theorem pyRStrip_append_ws {l t : List Char} (h : ∀ c ∈ t, wsChar c = true) :
    pyRStrip (l ++ t) = pyRStrip l := by
  unfold pyRStrip
  rw [List.reverse_append, dropWhile_append_all (fun c hc => h c (List.mem_reverse.1 hc))]

theorem pyStrip_append_ws {l t : List Char} (h : ∀ c ∈ t, wsChar c = true) :
    pyStrip (l ++ t) = pyStrip l := by
  unfold pyStrip
  rw [pyRStrip_append_ws h]

theorem pyRStrip_all_ws {l : List Char} (h : ∀ c ∈ l, wsChar c = true) : pyRStrip l = [] := by
  unfold pyRStrip
  rw [dropWhile_all (fun c hc => h c (List.mem_reverse.1 hc))]
  rfl

theorem pyRStrip_cons_pos {c : Char} {x : List Char} (h : pyRStrip x ≠ []) :
    pyRStrip (c :: x) = c :: pyRStrip x := by
  have h' : x.reverse.dropWhile wsChar ≠ [] := by
    intro e
    apply h
    unfold pyRStrip
    rw [e]
    rfl
  unfold pyRStrip
  rw [List.reverse_cons, dropWhile_append_pos h', List.reverse_append]
  rfl

theorem pyStrip_cons_ws {c : Char} {x : List Char} (hc : wsChar c = true) :
    pyStrip (c :: x) = pyStrip x := by
  by_cases h : pyRStrip x = []
  · have hx : ∀ d ∈ x.reverse, wsChar d = true := by
      have := h
      unfold pyRStrip at this
      exact List.dropWhile_eq_nil_iff.1 (List.reverse_eq_nil_iff.1 this)
    have hcx : ∀ d ∈ (c :: x), wsChar d = true := by
      intro d hd
      rcases List.mem_cons.1 hd with hd | hd
      · exact hd ▸ hc
      · exact hx d (List.mem_reverse.2 hd)
    unfold pyStrip
    rw [h, pyRStrip_all_ws hcx]
  · unfold pyStrip
    rw [pyRStrip_cons_pos h]
    unfold pyLStrip
    rw [List.dropWhile_cons, if_pos hc]

theorem pySplit_cons (sep c : Char) (x : List Char) :
    pySplit sep (c :: x) =
      if c = sep then [] :: pySplit sep x
      else
        match pySplit sep x with
        | [] => [[c]]
        | seg :: segs => (c :: seg) :: segs := rfl

theorem pySplit_ne_nil (sep : Char) : ∀ l : List Char, pySplit sep l ≠ []
  | [] => by simp [pySplit]
  | c :: rest => by
      unfold pySplit
      by_cases h : c = sep
      · simp [h]
      · simp only [h, if_false]
        cases hs : pySplit sep rest with
        | nil => simp
        | cons a as => simp

theorem pySplit_no_sep {sep : Char} :
    ∀ {t : List Char}, (∀ c ∈ t, c ≠ sep) → pySplit sep t = [t]
  | [], _ => rfl
  | c :: t, h => by
      unfold pySplit
      rw [if_neg (h c (List.mem_cons_self c t)),
        pySplit_no_sep (fun d hd => h d (List.mem_cons_of_mem c hd))]

/-- Appending a separator-free tail to a string extends exactly the last
segment of its split. -/
theorem pySplit_append_nosep {sep : Char} {t : List Char} (ht : ∀ c ∈ t, c ≠ sep) :
    ∀ x : List Char, ∃ pre last,
      pySplit sep x = pre ++ [last] ∧ pySplit sep (x ++ t) = pre ++ [last ++ t]
  | [] => ⟨[], [], rfl, by rw [List.nil_append, pySplit_no_sep ht]; rfl⟩
  | c :: x => by
      obtain ⟨pre, last, h1, h2⟩ := pySplit_append_nosep ht x
      by_cases hc : c = sep
      · refine ⟨[] :: pre, last, ?_, ?_⟩
        · unfold pySplit
          rw [if_pos hc, h1]
          rfl
        · show pySplit sep (c :: (x ++ t)) = _
          unfold pySplit
          rw [if_pos hc, h2]
          rfl
      · cases pre with
        | nil =>
            refine ⟨[], c :: last, ?_, ?_⟩
            · unfold pySplit
              rw [if_neg hc, h1]
              rfl
            · show pySplit sep (c :: (x ++ t)) = _
              unfold pySplit
              rw [if_neg hc, h2]
              rfl
        | cons p pre =>
            refine ⟨(c :: p) :: pre, last, ?_, ?_⟩
            · unfold pySplit
              rw [if_neg hc, h1]
              rfl
            · show pySplit sep (c :: (x ++ t)) = _
              unfold pySplit
              rw [if_neg hc, h2]
              rfl

/-- Every string is its right-strip followed by its trailing
whitespace. -/
theorem pyRStrip_decomp (l : List Char) :
    l = pyRStrip l ++ (l.reverse.takeWhile wsChar).reverse
    ∧ ∀ c ∈ (l.reverse.takeWhile wsChar).reverse, wsChar c = true := by
  constructor
  · have h2 := congrArg List.reverse (List.takeWhile_append_dropWhile wsChar l.reverse)
    rw [List.reverse_append, List.reverse_reverse] at h2
    exact h2.symm
  · intro c hc
    exact List.mem_takeWhile_imp (List.mem_reverse.1 hc)

theorem map_strip_split_rstrip (l : List Char) :
    (pySplit ':' (pyRStrip l)).map pyStrip = (pySplit ':' l).map pyStrip := by
  obtain ⟨hdec, hws⟩ := pyRStrip_decomp l
  have hne : ∀ c ∈ (l.reverse.takeWhile wsChar).reverse, c ≠ ':' := by
    intro c hc he
    have h := hws c hc
    rw [he] at h
    exact absurd h (by decide)
  obtain ⟨pre, last, h1, h2⟩ := pySplit_append_nosep hne (pyRStrip l)
  calc (pySplit ':' (pyRStrip l)).map pyStrip
      = pre.map pyStrip ++ [pyStrip last] := by rw [h1]; simp
    _ = pre.map pyStrip ++ [pyStrip (last ++ (l.reverse.takeWhile wsChar).reverse)] := by
          rw [pyStrip_append_ws hws]
    _ = (pySplit ':' (pyRStrip l ++ (l.reverse.takeWhile wsChar).reverse)).map pyStrip := by
          rw [h2]; simp
    _ = (pySplit ':' l).map pyStrip := by rw [← hdec]

theorem map_strip_split_lstrip :
    ∀ x : List Char, (pySplit ':' (pyLStrip x)).map pyStrip = (pySplit ':' x).map pyStrip
  | [] => rfl
  | c :: x => by
      by_cases hc : wsChar c = true
      · have hcc : ¬ c = ':' := by
          intro e
          rw [e] at hc
          exact absurd hc (by decide)
        have hl : pyLStrip (c :: x) = pyLStrip x := by
          unfold pyLStrip
          rw [List.dropWhile_cons, if_pos hc]
        rw [hl, map_strip_split_lstrip x]
        show (pySplit ':' x).map pyStrip = (pySplit ':' (c :: x)).map pyStrip
        rcases hs : pySplit ':' x with _ | ⟨seg, segs⟩
        · exact absurd hs (pySplit_ne_nil ':' x)
        · rw [pySplit_cons, if_neg hcc, hs]
          show (seg :: segs).map pyStrip = ((c :: seg) :: segs).map pyStrip
          simp [pyStrip_cons_ws hc]
      · have hl : pyLStrip (c :: x) = c :: x := by
          unfold pyLStrip
          rw [List.dropWhile_cons, if_neg hc]
        rw [hl]

theorem map_strip_split_strip (l : List Char) :
    (pySplit ':' (pyStrip l)).map pyStrip = (pySplit ':' l).map pyStrip := by
  rw [show pyStrip l = pyLStrip (pyRStrip l) from rfl,
    map_strip_split_lstrip (pyRStrip l), map_strip_split_rstrip l]

theorem mem_pyStrip_iff {l : List Char} {c : Char} (hc : wsChar c = false) :
    c ∈ pyStrip l ↔ c ∈ l := by
  obtain ⟨hdec, hws⟩ := pyRStrip_decomp l
  have hA := List.takeWhile_append_dropWhile wsChar (pyRStrip l)
  constructor
  · intro h
    have h1 : c ∈ pyRStrip l := by
      rw [← hA]
      exact List.mem_append_right _ h
    rw [hdec]
    exact List.mem_append_left _ h1
  · intro h
    rw [hdec] at h
    rcases List.mem_append.1 h with h | h
    · rw [← hA] at h
      rcases List.mem_append.1 h with h | h
      · rw [List.mem_takeWhile_imp h] at hc
        exact absurd hc (by simp)
      · exact h
    · rw [hws c h] at hc
      exact absurd hc (by simp)

theorem contains_pyStrip_colon (l : List Char) :
    (pyStrip l).contains ':' = l.contains ':' := by
  have h := mem_pyStrip_iff (l := l) (c := ':') (by decide)
  by_cases hm : ':' ∈ l
  · have e1 : (pyStrip l).contains ':' = true := by simpa using h.2 hm
    have e2 : l.contains ':' = true := by simpa using hm
    rw [e1, e2]
  · have hns : ':' ∉ pyStrip l := fun hx => hm (h.1 hx)
    have e1 : (pyStrip l).contains ':' = false := by simpa using hns
    have e2 : l.contains ':' = false := by simpa using hm
    rw [e1, e2]

/-- `format_method_name` computes exactly the spec's canonicalization
rule (the source strips before splitting; the spec splits the raw token
and strips each segment — equivalent). -/
theorem format_method_name_eq_spec (s : String) :
    MethodCall.format_method_name s = spec_canonicalize s := by
  simp only [MethodCall.format_method_name, spec_canonicalize, contains_pyStrip_colon]
  by_cases h : s.data.contains ':' = true
  · rw [if_pos h, if_pos h, map_strip_split_strip]
  · rw [if_neg h, if_neg h]

theorem startsWithAny_false_of_marker {m : String} {c0 : Char} {rest : List Char}
    (hm : m.data = c0 :: rest) (hc : c0 = '+' ∨ c0 = '-') :
    startsWithAnyClassStart m = false := by
  unfold startsWithAnyClassStart classMethodNameStarts
  rw [hm]
  rcases hc with hc | hc <;> subst hc <;> rfl

/-- C1 (counterexample).  On the end-to-end scenario exactly as the spec
words it — declaration unit `@interface Dog : Animal` with declared
method `bark`, definition unit for `Dog` whose body of method
`-(void) bark` contains the lines `[self growl];` and
`[Animal sharedInstance];` — the analyzer emits *no* call edges at all,
not the two claimed edges `-[Dog bark] -> -[Dog growl]` and
`-[Dog bark] -> +[Animal sharedInstance]`. -/
theorem c1_scenario_counterexample :
    (runUnits c1Units).call_graph.map MethodCall.edgeString = []
    ∧ ¬ ((runUnits c1Units).call_graph.map MethodCall.edgeString
          = ["-[Dog bark] -> -[Dog growl]", "-[Dog bark] -> +[Animal sharedInstance]"]) := by
  refine ⟨rfl, fun h => ?_⟩
  rw [show (runUnits c1Units).call_graph.map MethodCall.edgeString = [] from rfl] at h
  exact List.noConfusion h

/-- C1 (amended).  On that scenario the run records the hierarchy edge
`Dog -> Animal` and the one declared method `bark`, but emits zero call
edges, because the definition unit's header `-(void) bark` — with a space
between the return type's closing parenthesis and the method name — never
matches the method-header pattern (which requires the name to follow the
parenthesis immediately), so no caller context is ever active; the
summary accordingly reports 1 class, 1 declared method, and 0 call
edges. -/
theorem c1_scenario_amended :
    (runUnits c1Units).class_hierarchy = [("Dog", "Animal")]
    ∧ (runUnits c1Units).class_methods = [("Dog", ["bark"])]
    ∧ (runUnits c1Units).call_graph = []
    ∧ implHeaderMatch "-(void) bark \x7b".data = none
    ∧ statisticsLines (runUnits c1Units)
        = ["\nStatistics:", "Total Classes: 1", "Total Methods: 1", "Total Method Calls: 0"] :=
  ⟨rfl, rfl, rfl, rfl, rfl⟩

/-- C2 (counterexample).  A definition unit whose header carries a
leading `+` (`+ (void)sharedThing`) yields an edge whose recorded caller
method is `+ [C sharedThing]`, yet the rendered caller signature is
`-[C + [C sharedThing]]`: its kind marker is `-`, not the declared
`+`. -/
theorem c2_caller_marker_counterexample :
    (runUnits c2Units).call_graph.map
        (fun mc => (mc.caller_method, mc.get_caller_signature))
      = [("+ [C sharedThing]", "-[C + [C sharedThing]]")]
    ∧ "-[C + [C sharedThing]]".data.head? = some '-'
    ∧ ('-' : Char) ≠ '+' :=
  ⟨rfl, rfl, by decide⟩

/-- C2 (amended).  The kind marker rendered in an edge's caller signature
is `caller_type`, computed by the class-method-prefix test on the stored
caller-method string; since the scanner always stores a pre-formatted
caller string `<declared marker> [Class method]`, which begins with `+`
or `-` and hence with none of the class-method name prefixes, the
rendered caller marker is always `-`, regardless of the declared marker
(the declared marker survives only inside the embedded method text). -/
theorem c2_caller_marker_amended :
    ∀ (cc m ce cem : String),
      m.data.head? = some '+' ∨ m.data.head? = some '-' →
      (mkMethodCall cc m ce cem).caller_type = "-" := by
  intro cc m ce cem h
  rcases hm : m.data with _ | ⟨c0, rest⟩
  · rcases h with h | h <;> rw [hm] at h <;> exact Option.noConfusion h
  · have hc : c0 = '+' ∨ c0 = '-' := by
      rcases h with h | h <;> rw [hm] at h <;> simp at h <;> simp [h]
    simp [mkMethodCall, startsWithAny_false_of_marker hm hc]

/-- C2 (witness for the amended theorem). -/
theorem c2_caller_marker_amended_witness :
    (mkMethodCall "C" "+ [C sharedThing]" "C" "+ [C helper]").caller_type = "-" :=
  c2_caller_marker_amended "C" "+ [C sharedThing]" "C" "+ [C helper]" (Or.inl rfl)

/-- C3 (counterexample).  In a run where `[Animal sharedInstance]` is
detected (inline classification `+`, as the recorded callee text
`+ [Animal sharedInstance]` shows), the *emitted* callee signature is
`-[Animal + [Animal sharedInstance]]`: its marker is `-`, so the
classification does not appear as the outer kind marker of the emitted callee
signature. -/
theorem c3_callee_marker_counterexample :
    (runUnits c3Units).call_graph.map
        (fun mc => (mc.callee_method, mc.get_callee_signature))
      = [("- [Dog doWork]", "-[Dog - [Dog doWork]]"),
         ("+ [Animal sharedInstance]", "-[Animal + [Animal sharedInstance]]")]
    ∧ "-[Animal + [Animal sharedInstance]]".data.head? = some '-'
    ∧ ('-' : Char) ≠ '+' :=
  ⟨rfl, rfl, by decide⟩

/-- C3 (amended).  The call-site classification computed by the scanner
is exactly the claimed disjunction — (a) message name starts with one of
`alloc`, `new`, `shared`, `default`, `class`, or (b) the resolved
receiver class has an uppercase first character and no lowercase
character — and `sharedInstance` / `doWork` classify as claimed; but the
classification only reaches the `+`/`-` marker *embedded in the recorded
callee-method text*, while the marker of the emitted callee signature
(recomputed from that pre-formatted text) is `-` for both edges. -/
theorem c3_callee_classification_amended :
    (∀ m c : String,
      calleeMethodType m c = (if spec_isClassLevel m c then "+" else "-"))
    ∧ calleeMethodType "sharedInstance" "Animal" = "+"
    ∧ calleeMethodType "doWork" "Dog" = "-"
    ∧ (runUnits c3Units).call_graph.map MethodCall.callee_method
        = ["- [Dog doWork]", "+ [Animal sharedInstance]"]
    ∧ (runUnits c3Units).call_graph.map MethodCall.callee_type = ["-", "-"] :=
  ⟨fun _ _ => rfl, rfl, rfl, rfl, rfl⟩

/-- C4 (counterexample).  For the call `[self foo::bar]` the recorded
callee text is `- [Cat foo::bar:]`: the embedded message name is
`foo::bar:`, produced by the inline formatting that *keeps* empty colon
segments, whereas the claimed rule (split, trim, drop empty segments,
rejoin, add trailing colon) yields `foo:bar:`; and the emitted callee
signature re-formats the whole pre-formatted text into
`-[Cat - [Cat foo:bar:]:]` rather than a `marker[Class message]` form
carrying the canonicalized name. -/
theorem c4_canonicalization_counterexample :
    (runUnits c4Units).call_graph.map MethodCall.callee_method = ["- [Cat foo::bar:]"]
    ∧ (runUnits c4Units).call_graph.map MethodCall.get_callee_signature
        = ["-[Cat - [Cat foo:bar:]:]"]
    ∧ inlineFormatCalleeName "foo::bar" = "foo::bar:"
    ∧ spec_canonicalize "foo::bar" = "foo:bar:"
    ∧ ("foo::bar:" : String) ≠ ("foo:bar:" : String) :=
  ⟨rfl, rfl, rfl, rfl, by decide⟩

/-- C4 (amended).  `format_method_name` itself satisfies the claimed
canonicalization rule for *every* input string — including the claimed
round trips `"foo: bar :" ↦ "foo:bar:"` and `"run" ↦ "run"` — but the
message name embedded in an emitted callee signature is governed by the
different inline rule of the scanner, which keeps empty segments
(`"foo::bar" ↦ "foo::bar:"`), and the emitted signature then re-applies
`format_method_name` to the whole pre-formatted callee text. -/
theorem c4_canonicalization_amended :
    (∀ s : String, MethodCall.format_method_name s = spec_canonicalize s)
    ∧ MethodCall.format_method_name "foo: bar :" = "foo:bar:"
    ∧ MethodCall.format_method_name "run" = "run"
    ∧ inlineFormatCalleeName "foo::bar" = "foo::bar:"
    ∧ (runUnits c4Units).call_graph.map MethodCall.callee_method = ["- [Cat foo::bar:]"] :=
  ⟨format_method_name_eq_spec, rfl, rfl, rfl, rfl⟩

/-- C5 (confirmed).  Receiver resolution: `self` resolves to the active
class; `super` resolves to the hierarchy entry of the active class, with
the synthesized default `UnknownSuperOf<activeClass>` (in particular, on
the empty hierarchy the default itself); any other token resolves to
itself verbatim.  Concretely, `[super helper]` in a definition unit for
`C` with no hierarchy entry yields callee class `UnknownSuperOfC`
(no failure), and with hierarchy `B -> A` recorded it yields `A`. -/
theorem c5_receiver_resolution :
    (∀ (h : List (String × String)) (cc : String), resolveReceiver h cc "self" = cc)
    ∧ (∀ (h : List (String × String)) (cc : String),
        resolveReceiver h cc "super" = dictGet cc ("UnknownSuperOf" ++ cc) h)
    ∧ (∀ (h : List (String × String)) (cc r : String),
        r ≠ "self" → r ≠ "super" → resolveReceiver h cc r = r)
    ∧ (∀ cc : String, dictGet cc ("UnknownSuperOf" ++ cc) [] = "UnknownSuperOf" ++ cc)
    ∧ (runUnits c5Units).call_graph.map MethodCall.callee_class = ["UnknownSuperOfC"]
    ∧ (runUnits c5UnitsB).call_graph.map MethodCall.callee_class = ["A"] := by
  refine ⟨fun h cc => rfl, fun h cc => ?_, fun h cc r h1 h2 => ?_, fun cc => rfl, rfl, rfl⟩
  · unfold resolveReceiver
    rw [if_neg (by decide), if_pos rfl]
  · unfold resolveReceiver
    rw [if_neg h1, if_neg h2]

/-- C5 (witness): the verbatim case of the resolution rule at a concrete
receiver token. -/
theorem c5_receiver_resolution_witness :
    resolveReceiver [] "C" "Animal" = "Animal" :=
  c5_receiver_resolution.2.2.1 [] "C" "Animal" (by decide) (by decide)

/-- C6 (confirmed).  The invocation indices attached at report time form
exactly the dense strictly increasing sequence `0, 1, 2, …` with no
duplicates, one per edge, and the indexed list preserves the call graph's
append (discovery) order: the scanner appends edges in unit order, line
order, and left-to-right order within a line, and `assignFrom 0` walks
that list in order. -/
theorem c6_invocation_indices (g : List MethodCall) :
    (assign_invocation_indices g).map Prod.fst = List.range g.length
    ∧ ((assign_invocation_indices g).map Prod.fst).Pairwise (· < ·)
    ∧ ((assign_invocation_indices g).map Prod.fst).Nodup
    ∧ (assign_invocation_indices g).map Prod.snd = g := by
  have h1 : (assign_invocation_indices g).map Prod.fst = List.range g.length := by
    rw [assign_invocation_indices, assignFrom_map_fst, List.range_eq_range']
  refine ⟨h1, ?_, ?_, assignFrom_map_snd 0 g⟩
  · rw [h1]
    exact List.pairwise_lt_range g.length
  · rw [h1]
    exact List.nodup_range g.length

/-- C7 (confirmed).  Per-line context tracking: a line matching the
method-declaration header only (re)sets the caller context and
contributes no edges — even when the same line also contains a bracketed
message send (witnessed by `c7HeaderLine`, which matches the header
pattern *and* contains a call site); a non-header line leaves the state
untouched when no context is active (so lines before the first header
never produce edges) and never changes the context. -/
theorem c7_method_context_tracking :
    (∀ (hier : List (String × String)) (cc : String) (st : ImplLineState)
        (line : List Char) (tm : String × String),
        implHeaderMatch line = some tm →
        processImplLine hier cc st line = { cur := some tm, graph := st.graph })
    ∧ (∀ (hier : List (String × String)) (cc : String) (st : ImplLineState)
        (line : List Char),
        implHeaderMatch line = none → st.cur = none →
        processImplLine hier cc st line = st)
    ∧ (∀ (hier : List (String × String)) (cc : String) (st : ImplLineState)
        (line : List Char),
        implHeaderMatch line = none →
        (processImplLine hier cc st line).cur = st.cur)
    ∧ (∀ (hier : List (String × String)) (cc : String) (g : List MethodCall)
        (lines : List (List Char)),
        (∀ l ∈ lines, implHeaderMatch l = none) →
        (lines.foldl (processImplLine hier cc) { cur := none, graph := g }).graph = g)
    ∧ implHeaderMatch c7HeaderLine = some ("-", "tick")
    ∧ (reFindIter methodCallsPattern c7HeaderLine).length = 1 := by
  have h1 : ∀ (hier : List (String × String)) (cc : String) (st : ImplLineState)
      (line : List Char) (tm : String × String),
      implHeaderMatch line = some tm →
      processImplLine hier cc st line = { cur := some tm, graph := st.graph } := by
    intro hier cc st line tm h
    unfold processImplLine
    rw [h]
  have h2 : ∀ (hier : List (String × String)) (cc : String) (st : ImplLineState)
      (line : List Char),
      implHeaderMatch line = none → st.cur = none →
      processImplLine hier cc st line = st := by
    intro hier cc st line h hcur
    unfold processImplLine
    rw [h, hcur]
  refine ⟨h1, h2, ?_, ?_, rfl, rfl⟩
  · intro hier cc st line h
    unfold processImplLine
    rw [h]
    cases hcur : st.cur with
    | none => exact hcur
    | some cur => rfl
  · intro hier cc g lines
    induction lines with
    | nil => intro _; rfl
    | cons l ls ih =>
        intro h
        rw [List.foldl_cons, h2 hier cc _ l (h l (List.mem_cons_self l ls)) rfl]
        exact ih (fun x hx => h x (List.mem_cons_of_mem l hx))

/-- C7 (witness): the header conjunct at the concrete line that contains
both a header and a call site, and the no-edges conjunct at two concrete
headerless call-site lines. -/
theorem c7_method_context_tracking_witness :
    processImplLine [] "C" { cur := none, graph := [] } c7HeaderLine
      = { cur := some ("-", "tick"), graph := [] }
    ∧ (c7NoHeaderLines.foldl (processImplLine [] "C")
        { cur := none, graph := [] }).graph = [] :=
  ⟨c7_method_context_tracking.1 [] "C" { cur := none, graph := [] } c7HeaderLine
      ("-", "tick") rfl,
   c7_method_context_tracking.2.2.2.1 [] "C" [] c7NoHeaderLines (by decide)⟩

theorem pairKeyLe_total (a b : String × String) :
    pairKeyLe a b = false → pairKeyLe b a = true := by
  intro h
  unfold pairKeyLe at *
  exact decide_eq_true (le_of_not_le (of_decide_eq_false h))

theorem pairKeyLe_trans (a b c : String × String) :
    pairKeyLe a b = true → pairKeyLe b c = true → pairKeyLe a c = true := by
  intro h1 h2
  unfold pairKeyLe at *
  exact decide_eq_true (le_trans (of_decide_eq_true h1) (of_decide_eq_true h2))

theorem strLe_total (a b : String) :
    decide (a ≤ b) = false → decide (b ≤ a) = true := fun h =>
  decide_eq_true (le_of_not_le (of_decide_eq_false h))

theorem strLe_trans (a b c : String) :
    decide (a ≤ b) = true → decide (b ≤ c) = true → decide (a ≤ c) = true := fun h1 h2 =>
  decide_eq_true (le_trans (of_decide_eq_true h1) (of_decide_eq_true h2))

theorem idxLe_total (a b : Nat × MethodCall) :
    decide (a.1 ≤ b.1) = false → decide (b.1 ≤ a.1) = true := fun h =>
  decide_eq_true (Nat.le_of_not_le (of_decide_eq_false h))

theorem idxLe_trans (a b c : Nat × MethodCall) :
    decide (a.1 ≤ b.1) = true → decide (b.1 ≤ c.1) = true → decide (a.1 ≤ c.1) = true :=
  fun h1 h2 => decide_eq_true (Nat.le_trans (of_decide_eq_true h1) (of_decide_eq_true h2))

/-- C8 (confirmed).  Report shape and ordering: the report is the fixed
banner, the hierarchy section with one `Class -> Superclass` line per
entry sorted ascending by class name, the fact sections — for each caller
class in ascending order, a header line followed by one fact line per
edge in strictly ascending invocation-index order — and exactly the three
summary counters (declared-method-table size, total declared methods,
total call edges).  Each fact line has the exact shape
`StaticMethodInvocation(invocationId, invocationIndex, calleeSignature,
callerSignature)` with `invocationId =
invoke_<callerClass>_<callerMethodText>_<invocationIndex>`, where the
caller-method text is the recorded pre-formatted caller method string
(the spec's `callerMethodSignature`). -/
theorem c8_report_shape (s : AnalyzerState) :
    print_call_graph s
      = ["\nCall Graph Analysis:", "===================", "\nClass Hierarchy:"]
          ++ hierarchyLines s
          ++ ["\nMethod Calls (Doop Facts Format):"]
          ++ callSections s
          ++ statisticsLines s
    ∧ hierarchyLines s = (sortedHierarchy s).map (fun p => p.1 ++ " -> " ++ p.2)
    ∧ (sortedHierarchy s).Pairwise (fun a b => a.1 ≤ b.1)
    ∧ (sortedCallerClasses s).Pairwise (fun a b => a ≤ b)
    ∧ (∀ c : String, (sectionCalls s c).Pairwise (fun a b => a.1 < b.1))
    ∧ (∀ p : Nat × MethodCall,
        factLine p
          = "  StaticMethodInvocation(" ++ invocationId p ++ ", " ++ toString p.1 ++ ", "
            ++ p.2.get_callee_signature ++ ", " ++ p.2.get_caller_signature ++ ")"
        ∧ invocationId p
          = "invoke_" ++ p.2.caller_class ++ "_" ++ p.2.caller_method ++ "_" ++ toString p.1)
    ∧ statisticsLines s
        = ["\nStatistics:",
           "Total Classes: " ++ toString s.class_methods.length,
           "Total Methods: " ++ toString (totalDeclaredMethods s.class_methods),
           "Total Method Calls: " ++ toString s.call_graph.length] := by
  refine ⟨rfl, rfl, ?_, ?_, ?_, fun p => ⟨rfl, rfl⟩, rfl⟩
  · exact (pairwise_sortLe pairKeyLe_total pairKeyLe_trans _).imp of_decide_eq_true
  · exact (pairwise_sortLe strLe_total strLe_trans _).imp of_decide_eq_true
  · intro c
    have hsorted :
        (sectionCalls s c).Pairwise (fun a b : Nat × MethodCall => decide (a.1 ≤ b.1) = true) :=
      pairwise_sortLe idxLe_total idxLe_trans _
    have hnodup_all : ((indexedCalls s).map Prod.fst).Nodup := by
      rw [indexedCalls, assign_invocation_indices, assignFrom_map_fst, ← List.range_eq_range']
      exact List.nodup_range s.call_graph.length
    have hsub :
        (((indexedCalls s).filter (fun p => p.2.caller_class == c)).map Prod.fst).Sublist
          ((indexedCalls s).map Prod.fst) :=
      (List.filter_sublist _).map Prod.fst
    have hnodup_filter :
        (((indexedCalls s).filter (fun p => p.2.caller_class == c)).map Prod.fst).Nodup :=
      hsub.nodup hnodup_all
    have hperm :
        ((sectionCalls s c).map Prod.fst).Perm
          (((indexedCalls s).filter (fun p => p.2.caller_class == c)).map Prod.fst) :=
      (sortLe_perm _ _).map Prod.fst
    have hnodup_section : ((sectionCalls s c).map Prod.fst).Nodup :=
      hperm.nodup_iff.2 hnodup_filter
    have hne : (sectionCalls s c).Pairwise (fun a b : Nat × MethodCall => a.1 ≠ b.1) :=
      List.pairwise_map.1 hnodup_section
    exact (hsorted.and hne).imp
      (fun hab => lt_of_le_of_ne (of_decide_eq_true hab.1) hab.2)

/-- C9 (confirmed, implicit claim).  `parse_interface` records the
hierarchy edge and the declared methods under the *supplied* fallback
class name, whatever it is: the class name `X` captured from the
`@interface X : Y` header is discarded, so a unit filed under any
fallback name `fb` records `fb -> Y` and the method under `fb`, even when
`X` differs from `fb`. -/
theorem c9_fallback_class_recording (fb : String) :
    (parse_interface c9DeclText fb initState).class_hierarchy = [(fb, "Y")]
    ∧ (parse_interface c9DeclText fb initState).class_methods = [(fb, ["m"])] :=
  ⟨rfl, rfl⟩

/-- C10 (confirmed).  Determinism: the analysis and its report are pure
functions of the ordered input-unit list — two runs on equal input lists
produce equal analyzer states and equal report lines.  The source's only
run state is the generator object (created fresh per run); CPython dict
iteration is insertion-ordered and `sorted` is deterministic, which the
model reflects, so no other input influences the output. -/
theorem c10_determinism (u v : List AUnit) (h : u = v) :
    runUnits u = runUnits v
    ∧ print_call_graph (runUnits u) = print_call_graph (runUnits v) := by
  subst h
  exact ⟨rfl, rfl⟩

/-- C10 (witness): determinism instantiated at a concrete run. -/
theorem c10_determinism_witness :
    runUnits c10Units = runUnits c10Units
    ∧ print_call_graph (runUnits c10Units) = print_call_graph (runUnits c10Units) :=
  c10_determinism c10Units c10Units rfl
